import Mathlib

/-!
Verification development for the JODC-CLI session engine (`src/main.go`,
`src/keybinds.go`).  The per-connection model (`Model`), its message handler
(`Model.Update`), the header/footer render helpers and the scrollable
viewport are translated from the source; the two external packages that are
not part of the sources (`components`, `utils`) and the third-party text
helpers (lipgloss, bubbles) are modelled from their documented behaviour,
with a comment on each such definition.

External effects are passed in as function parameters:
`readFile : String → Option String` models `os.ReadFile` (`none` = error) and
`render : String → String × Bool` models `glamour.Render` (the produced text
together with an error flag).  A result of `none` from `Model.Update` models
a Go runtime panic (index out of range / slice bounds out of range).
-/

namespace JODC

/-! ## Display-width and line model (go-runewidth / lipgloss) -/

/-- Modelled: terminal display width of one rune (go-runewidth): zero for the
NUL and control characters, two for the East-Asian wide ranges, one
otherwise. -/
def charWidth (c : Char) : Nat :=
  let n := c.toNat
  if n = 0 then 0
  else if n < 32 ∨ (0x7f ≤ n ∧ n < 0xa0) then 0
  else if (0x1100 ≤ n ∧ n ≤ 0x115f) ∨ (0x2e80 ≤ n ∧ n ≤ 0x303e) ∨
      (0x3041 ≤ n ∧ n ≤ 0x33ff) ∨ (0x3400 ≤ n ∧ n ≤ 0x4dbf) ∨
      (0x4e00 ≤ n ∧ n ≤ 0x9fff) ∨ (0xa000 ≤ n ∧ n ≤ 0xa4cf) ∨
      (0xac00 ≤ n ∧ n ≤ 0xd7a3) ∨ (0xf900 ≤ n ∧ n ≤ 0xfaff) ∨
      (0xfe30 ≤ n ∧ n ≤ 0xfe6f) ∨ (0xff00 ≤ n ∧ n ≤ 0xff60) ∨
      (0xffe0 ≤ n ∧ n ≤ 0xffe6) ∨ (0x20000 ≤ n ∧ n ≤ 0x2fffd) ∨
      (0x30000 ≤ n ∧ n ≤ 0x3fffd) then 2
  else 1

/-- Display width of one terminal line (a `\n`-free char list). -/
def lineWidth (l : List Char) : Nat := (l.map charWidth).sum

/-- `strings.Split(s, "\n")` on the character level: always at least one
line, one more line per newline character. -/
def splitLines : List Char → List (List Char)
  | [] => [[]]
  | c :: cs =>
    match splitLines cs with
    | [] => [[]]
    | line :: rest => if c = '\n' then [] :: line :: rest else (c :: line) :: rest

/-- `strings.Join(lines, "\n")` on the character level. -/
def joinLines : List (List Char) → List Char
  | [] => []
  | [l] => l
  | l :: ls => l ++ '\n' :: joinLines ls

/-- Modelled: `lipgloss.Height` — the number of lines of the string. -/
def lipglossHeight (s : String) : Nat := (splitLines s.data).length

/-- Widest line of a block of lines (0 for an empty block), as lipgloss's
`getLines` computes it. -/
def maxWidthOf (ls : List (List Char)) : Nat := (ls.map lineWidth).foldr max 0

/-- Modelled: `lipgloss.Width` — the display width of the widest line. -/
def lipglossWidth (s : String) : Nat := maxWidthOf (splitLines s.data)

/-- Display width of a single-line string. -/
def displayWidth (s : String) : Nat := lineWidth s.data

/-- Pad a line on the right with spaces up to width `w` (lipgloss's per-block
padding inside `JoinHorizontal`). -/
def padTo (l : List Char) (w : Nat) : List Char := l ++ List.replicate (w - lineWidth l) ' '

/-- Modelled: the extra-line insertion of `lipgloss.JoinHorizontal` for the
`Center` position: of the `h - ls.length` missing lines,
`round(0.5 * missing)` go on top and the rest below. -/
def padLinesCenter (ls : List (List Char)) (h : Nat) : List (List Char) :=
  let n := h - ls.length
  let topCount := (n + 1) / 2
  List.replicate topCount [] ++ ls ++ List.replicate (n - topCount) []

/-- Modelled: `lipgloss.JoinHorizontal(lipgloss.Center, a, b)` — split both
strings into lines, pad the shorter block with empty lines (centred), pad
every line of a block to the block's widest width, and concatenate the
blocks row by row. -/
def JoinHorizontalCenter (a b : String) : String :=
  let la := splitLines a.data
  let lb := splitLines b.data
  let h := max la.length lb.length
  let wa := maxWidthOf la
  let wb := maxWidthOf lb
  let rows := ((padLinesCenter la h).zip (padLinesCenter lb h)).map
    (fun p => padTo p.1 wa ++ padTo p.2 wb)
  String.mk (joinLines rows)

/-- Modelled: `lipgloss.PlaceHorizontal(w, lipgloss.Right, s)` — if the block
is at least `w` wide the string is returned unchanged, otherwise every line
is pushed to the right edge with spaces. -/
def PlaceHorizontalRight (w : Int) (s : String) : String :=
  let ls := splitLines s.data
  let contentWidth := maxWidthOf ls
  let gap := w - (contentWidth : Int)
  if gap ≤ 0 then s
  else String.mk (joinLines (ls.map
    (fun l => List.replicate (gap.toNat + (contentWidth - lineWidth l)) ' ' ++ l)))

/-! ## Decimal formatting (`fmt.Sprintf("%3.f%%", x)`) -/

/-- Decimal digit character. -/
def natDigitChar (d : Nat) : Char :=
  match d with
  | 0 => '0' | 1 => '1' | 2 => '2' | 3 => '3' | 4 => '4'
  | 5 => '5' | 6 => '6' | 7 => '7' | 8 => '8' | _ => '9'

/-- Decimal digits of `n`, least significant first (`[]` for zero). -/
def natDigitsRevAux (n : Nat) : List Char :=
  if h : n = 0 then [] else natDigitChar (n % 10) :: natDigitsRevAux (n / 10)
termination_by n
decreasing_by exact Nat.div_lt_self (Nat.pos_of_ne_zero h) (by norm_num)

/-- Decimal rendering of a natural number. -/
def natToString (n : Nat) : String :=
  if n = 0 then "0" else String.mk (natDigitsRevAux n).reverse

/-- Decimal rendering of an integer. -/
def intToString (n : Int) : String :=
  if n < 0 then "-" ++ natToString n.natAbs else natToString n.toNat

/-- Modelled: `fmt.Sprintf("%3.f%%", x)` — `x` rounded to an integer, printed
right-aligned in at least 3 columns, followed by a percent sign.  (Go rounds
exact halves to even; `round` rounds them up — the difference never matters
to the properties proved here, which only use the width of the result.) -/
def sprintfPercent3 (x : ℚ) : String :=
  let s := intToString (round x)
  String.mk (List.replicate (3 - s.length) ' ') ++ s ++ "%"

/-! ## Styles and fixed decorations (external `components` package) -/

/-- The horizontal-rule character `─` used by `HeaderView`/`FooterView`. -/
def ruleChar : Char := '─'

/-- Modelled from the spec: `components.HeaderStyle` (the `components`
package is not under src/) styles the document name with colors only — "a
header line (document name, left-aligned, padded with a horizontal rule
filling remaining width)" — so the rendered title's text, line count and
display width are those of the name itself. -/
def headerStyleRender (s : String) : String := s

/-- Modelled from the spec: `components.FooterStyle` (not under src/) styles
the scroll percentage with colors only; the text is unchanged. -/
def footerStyleRender (s : String) : String := s

/-- Modelled: `help.View` of the `keys` ShortHelp bindings (bubbles' help
bubble) — a single line of key hints.  `help.Width` may truncate this line,
which never changes the line count; the claims never inspect the hint text,
so it is kept untruncated. -/
def helpShortView : String := "↑/k move up • ↓/j move down • q quit • esc go back"

/-- Modelled from the spec: `utils.Max` (the `utils` package is not under
src/) — "padding is max(0, width - displayWidth(label))". -/
def goMax (a b : Int) : Int := max a b

/-! ## Viewport (bubbles `viewport.Model`) -/

/-- `viewState` of main.go (`fileListView` = 0, `fileContentView` = 1). -/
inductive ViewState where
  | fileListView
  | fileContentView
deriving DecidableEq, Repr

/-- The scroll state of the bubbles viewport: dimensions, vertical offset and
the current content split into lines. -/
structure Viewport where
  width : Int
  height : Int
  yOffset : Int
  lines : List String
deriving DecidableEq, Repr

/-- Modelled (bubbles viewport): the maximal vertical offset,
`max(0, len(lines) - height)`. -/
def Viewport.maxYOffset (v : Viewport) : Int := max 0 ((v.lines.length : Int) - v.height)

/-- Modelled (bubbles viewport): `SetYOffset` clamps into `[0, maxYOffset]`. -/
def Viewport.SetYOffset (v : Viewport) (n : Int) : Viewport :=
  { v with yOffset := min v.maxYOffset (max 0 n) }

/-- Modelled (bubbles viewport): at (or above) the top. -/
def Viewport.AtTop (v : Viewport) : Bool := decide (v.yOffset ≤ 0)

/-- Modelled (bubbles viewport): at (or beyond) the bottom. -/
def Viewport.AtBottom (v : Viewport) : Bool := decide (v.yOffset ≥ v.maxYOffset)

/-- Modelled (bubbles viewport): scroll to the top. -/
def Viewport.GotoTop (v : Viewport) : Viewport := v.SetYOffset 0

/-- Modelled (bubbles viewport): scroll to the bottom. -/
def Viewport.GotoBottom (v : Viewport) : Viewport := v.SetYOffset v.maxYOffset

/-- `strings.ReplaceAll(s, "\r\n", "\n")` on the character level:
left-to-right, non-overlapping. -/
def stripCR : List Char → List Char
  | [] => []
  | '\r' :: '\n' :: cs => '\n' :: stripCR cs
  | c :: cs => c :: stripCR cs

/-- Modelled (bubbles viewport): `SetContent` normalizes line endings, splits
the text into lines and snaps to the bottom if the old offset is past the new
last line. -/
def Viewport.SetContent (v : Viewport) (s : String) : Viewport :=
  let ls := (splitLines (stripCR s.data)).map String.mk
  let v1 := { v with lines := ls }
  if v.yOffset > (ls.length : Int) - 1 then v1.GotoBottom else v1

/-- Modelled (bubbles viewport): scroll down `n` lines. -/
def Viewport.LineDown (v : Viewport) (n : Int) : Viewport :=
  if v.AtBottom ∨ n = 0 ∨ v.lines.length = 0 then v else v.SetYOffset (v.yOffset + n)

/-- Modelled (bubbles viewport): scroll up `n` lines. -/
def Viewport.LineUp (v : Viewport) (n : Int) : Viewport :=
  if v.AtTop ∨ n = 0 ∨ v.lines.length = 0 then v else v.SetYOffset (v.yOffset - n)

/-- Modelled (bubbles viewport): scroll down one page. -/
def Viewport.ViewDown (v : Viewport) : Viewport :=
  if v.AtBottom then v else v.SetYOffset (v.yOffset + v.height)

/-- Modelled (bubbles viewport): scroll up one page. -/
def Viewport.ViewUp (v : Viewport) : Viewport :=
  if v.AtTop then v else v.SetYOffset (v.yOffset - v.height)

/-- Modelled (bubbles viewport): scroll down half a page (Go integer
division truncates toward zero). -/
def Viewport.HalfViewDown (v : Viewport) : Viewport :=
  if v.AtBottom then v else v.SetYOffset (v.yOffset + v.height.tdiv 2)

/-- Modelled (bubbles viewport): scroll up half a page. -/
def Viewport.HalfViewUp (v : Viewport) : Viewport :=
  if v.AtTop then v else v.SetYOffset (v.yOffset - v.height.tdiv 2)

/-- Modelled (bubbles viewport): `ScrollPercent` — 1 when the content fits,
otherwise `yOffset / (len(lines) - height)` clamped to `[0, 1]`. -/
def Viewport.ScrollPercent (v : Viewport) : ℚ :=
  if v.height ≥ (v.lines.length : Int) then 1
  else max 0 (min 1 ((v.yOffset : ℚ) / ((v.lines.length : ℚ) - (v.height : ℚ))))

/-- The two kinds of bubbletea messages the session engine reacts to: a key
press (by its key string) and a terminal resize. -/
inductive Msg where
  | key (s : String)
  | windowSize (width height : Int)
deriving DecidableEq, Repr

/-- Modelled (bubbles viewport): the viewport's own key bindings, applied by
`viewport.Update` on every key message (its default key map; `enter` and
`esc` are not among them). -/
def Viewport.updateKey (v : Viewport) (s : String) : Viewport :=
  if ["pgdown", " ", "f"].contains s then v.ViewDown
  else if ["pgup", "b"].contains s then v.ViewUp
  else if ["d", "ctrl+d"].contains s then v.HalfViewDown
  else if ["u", "ctrl+u"].contains s then v.HalfViewUp
  else if ["down", "j"].contains s then v.LineDown 1
  else if ["up", "k"].contains s then v.LineUp 1
  else v

/-- Modelled (bubbles viewport): `viewport.Update` handles key messages via
its key map and ignores resize messages (the parent model resizes it). -/
def Viewport.Update (v : Viewport) (msg : Msg) : Viewport :=
  match msg with
  | .key s => v.updateKey s
  | .windowSize _ _ => v

/-! ## Key bindings (`src/keybinds.go`) -/

/-- `keys.Up` — `key.WithKeys("up", "k")`. -/
def keysUp : List String := ["up", "k"]

/-- `keys.Down` — `key.WithKeys("down", "j")`. -/
def keysDown : List String := ["down", "j"]

/-- `keys.Quit` — `key.WithKeys("q", "ctrl+c")`. -/
def keysQuit : List String := ["q", "ctrl+c"]

/-- `keys.Back` — `key.WithKeys("esc")`. -/
def keysBack : List String := ["esc"]

/-- `keys.Enter` — `key.WithKeys("enter")`. -/
def keysEnter : List String := ["enter"]

/-- `m.keys.Top` is referenced by `Model.Update`, but the `keyMap` struct in
keybinds.go declares no `Top` binding; a zero-valued `key.Binding` has no
keys and `key.Matches` never fires on it. -/
def keysTop : List String := []

/-! ## The session model (`Model` of src/main.go) -/

/-- The per-connection `Model` struct of main.go.  `help` is kept as the only
field of it the program uses, its `Width`; the shared global `keys` is the
key map above. -/
structure Model where
  cursor : Int
  ready : Bool
  viewport : Viewport
  fileNames : List String
  fileDescriptions : List String
  currentView : ViewState
  selectedFileName : String
  fileContent : String
  terminalHeight : Int
  helpWidth : Int
  catimgOutput : String
  qrOutput : String
deriving DecidableEq, Repr

/-- `Model.HeaderView`: the styled document name followed by a horizontal
rule filling the remaining viewport width. -/
def Model.HeaderView (m : Model) : String :=
  let title := headerStyleRender m.selectedFileName
  let line := String.mk (List.replicate
    (goMax 0 (m.viewport.width - (lipglossWidth title : Int))).toNat ruleChar)
  JoinHorizontalCenter title line

/-- The `footerInfo` local of `Model.FooterView`: a horizontal rule followed
by the right-aligned scroll percentage. -/
def Model.footerInfo (m : Model) : String :=
  let info := footerStyleRender (sprintfPercent3 (m.viewport.ScrollPercent * 100))
  let line := String.mk (List.replicate
    (goMax 0 (m.viewport.width - (lipglossWidth info : Int))).toNat ruleChar)
  JoinHorizontalCenter line info

/-- `Model.FooterView`: the right-aligned help line, a newline, then the
rule-plus-percentage line. -/
def Model.FooterView (m : Model) : String :=
  let helpView := PlaceHorizontalRight m.viewport.width helpShortView
  helpView ++ "\n" ++ m.footerInfo

/-- Go slice indexing `xs[i]` on an `int` index: `none` models the runtime
panic when `i` is out of range. -/
def goIndex (xs : List String) (i : Int) : Option String :=
  if 0 ≤ i then xs[i.toNat]? else none

/-- `strings.Join(strings.Split(fileContent, "\n")[2:], "\n")`: `none` models
the slice-bounds panic when the split has fewer than 2 elements (content
without a newline). -/
def stripMeta (content : String) : Option String :=
  let parts := splitLines content.data
  if parts.length < 2 then none
  else some (String.mk (joinLines (parts.drop 2)))

/-- The `os.ReadFile` part of the Enter branch: on error the content becomes
the placeholder `"Error reading file"`; on success the first two lines are
stripped and the selected file name is recorded. -/
def loadFile (readFile : String → Option String) (m : Model) (selectedFile : String) :
    Option Model :=
  match readFile ("directory/" ++ selectedFile) with
  | none => some { m with fileContent := "Error reading file" }
  | some content =>
    match stripMeta content with
    | none => none
    | some stripped =>
      some { m with fileContent := stripped, selectedFileName := selectedFile }

/-- The body of the Enter case in ListView: index the file list at the
cursor (panic if out of range), read and strip the file, render it with
glamour — on a render error `SetContent("Error parsing markdown")` is called
but then unconditionally overwritten by `SetContent(parsedFileContent)` —
switch to `fileContentView` and scroll to the top. -/
def enterLoad (readFile : String → Option String) (render : String → String × Bool)
    (m : Model) : Option Model :=
  match goIndex m.fileNames m.cursor with
  | none => none
  | some selectedFile =>
    match loadFile readFile m selectedFile with
    | none => none
    | some m1 =>
      let pr := render m1.fileContent
      let m2 := if pr.2 then { m1 with viewport := m1.viewport.SetContent "Error parsing markdown" }
        else m1
      some { m2 with
        viewport := (m2.viewport.SetContent pr.1).GotoTop,
        currentView := .fileContentView }

/-- The Up case: decrement the cursor when it is positive and the list view
is active. -/
def upAction (m : Model) : Model :=
  if m.cursor > 0 ∧ m.currentView = .fileListView then { m with cursor := m.cursor - 1 } else m

/-- The Down case: increment the cursor when it is below `len(fileNames)-1`
and the list view is active. -/
def downAction (m : Model) : Model :=
  if m.cursor < (m.fileNames.length : Int) - 1 ∧ m.currentView = .fileListView then
    { m with cursor := m.cursor + 1 }
  else m

/-- The Top case: scroll the viewport to the top. -/
def topAction (m : Model) : Model := { m with viewport := m.viewport.GotoTop }

/-- The Enter case: only acts in the list view. -/
def enterAction (readFile : String → Option String) (render : String → String × Bool)
    (m : Model) : Option Model :=
  if m.currentView = .fileListView then enterLoad readFile render m else some m

/-- The Back (esc) case: from the content view, return to the list view and
scroll the viewport to the top. -/
def backAction (m : Model) : Model :=
  if m.currentView = .fileContentView then
    { m with currentView := .fileListView, viewport := m.viewport.GotoTop }
  else m

/-- The `tea.WindowSizeMsg` case: store the width in `help.Width`, measure
the header and footer, and size the viewport to the window height minus
those margins (creating the viewport on the first resize). -/
def resizeAction (m : Model) (w h : Int) : Model :=
  let m1 := { m with helpWidth := w }
  let headerHeight : Int := lipglossHeight m1.HeaderView
  let footerHeight : Int := lipglossHeight m1.FooterView
  let verticalMarginHeight := headerHeight + footerHeight
  if ¬ m1.ready then
    { m1 with
      viewport := { width := w, height := h - verticalMarginHeight, yOffset := 0, lines := [] },
      ready := true }
  else
    { m1 with viewport := { m1.viewport with width := w, height := h - verticalMarginHeight } }

/-- `Model.Update` of main.go.  The returned `Bool` is true exactly when the
command is `tea.Quit` (Quit returns early, before the viewport update); all
other paths fall through to `m.viewport.Update(msg)`.  `none` models a
runtime panic. -/
def Model.Update (readFile : String → Option String) (render : String → String × Bool)
    (m : Model) (msg : Msg) : Option (Model × Bool) :=
  match msg with
  | .key s =>
    if keysQuit.contains s then some (m, true)
    else
      (if keysUp.contains s then some (upAction m)
       else if keysDown.contains s then some (downAction m)
       else if keysTop.contains s then some (topAction m)
       else if keysEnter.contains s then enterAction readFile render m
       else if keysBack.contains s then some (backAction m)
       else some m).map
        (fun m1 => ({ m1 with viewport := m1.viewport.Update (Msg.key s) }, false))
  | .windowSize w h =>
    let m1 := resizeAction m w h
    some ({ m1 with viewport := m1.viewport.Update (Msg.windowSize w h) }, false)

/-- The model `teaHandler` constructs for a fresh connection: zero-valued
cursor/viewport/views, the listed documents, the terminal height from the
pty, `help.New()` (width 0) and the captured decorative blocks. -/
def teaHandlerModel (fileNames fileDescriptions : List String) (terminalHeight : Int)
    (catimgOutput qrOutput : String) : Model :=
  { cursor := 0
    ready := false
    viewport := { width := 0, height := 0, yOffset := 0, lines := [] }
    fileNames := fileNames
    fileDescriptions := fileDescriptions
    currentView := .fileListView
    selectedFileName := ""
    fileContent := ""
    terminalHeight := terminalHeight
    helpWidth := 0
    catimgOutput := catimgOutput
    qrOutput := qrOutput }

/-- Run a sequence of key presses through `Model.Update`, stopping with
`none` if any of them panics. -/
def runKeys (readFile : String → Option String) (render : String → String × Bool)
    (m : Model) : List String → Option Model
  | [] => some m
  | k :: ks =>
    match Model.Update readFile render m (.key k) with
    | none => none
    | some (m1, _) => runKeys readFile render m1 ks

/-- The cursor invariant of the spec: `0 <= cursor < max(1, len(documents))`. -/
def cursorInv (m : Model) : Prop :=
  0 ≤ m.cursor ∧ m.cursor < max 1 (m.fileNames.length : Int)

/-- The session states reachable from a fresh connection by any sequence of
messages that does not panic. -/
inductive Reachable (readFile : String → Option String) (render : String → String × Bool) :
    Model → Prop where
  | init : ∀ fn fd th c q, Reachable readFile render (teaHandlerModel fn fd th c q)
  | step : ∀ {m msg m' quit}, Reachable readFile render m →
      Model.Update readFile render m msg = some (m', quit) → Reachable readFile render m'

/-- Two concurrent sessions, each with its own isolated `Model` (the wish
server runs one bubbletea program per connection). -/
structure TwoSessions where
  s1 : Model
  s2 : Model
deriving DecidableEq, Repr

/-- Deliver a message to the first session only. -/
def stepSession1 (readFile : String → Option String) (render : String → String × Bool)
    (w : TwoSessions) (msg : Msg) : Option TwoSessions :=
  (Model.Update readFile render w.s1 msg).map (fun p => { w with s1 := p.1 })

/-- Deliver a message to the second session only. -/
def stepSession2 (readFile : String → Option String) (render : String → String × Bool)
    (w : TwoSessions) (msg : Msg) : Option TwoSessions :=
  (Model.Update readFile render w.s2 msg).map (fun p => { w with s2 := p.1 })

/-! ## Lemmas about the line model -/

theorem splitLines_cons_eq {c : Char} {cs line : List Char} {rest : List (List Char)}
    (h : splitLines cs = line :: rest) :
    splitLines (c :: cs) = if c = '\n' then [] :: line :: rest else (c :: line) :: rest := by
  simp only [splitLines, h]

theorem splitLines_ne_nil (l : List Char) : splitLines l ≠ [] := by
  induction l with
  | nil => simp [splitLines]
  | cons c cs ih =>
    cases h : splitLines cs with
    | nil => exact absurd h ih
    | cons line rest => rw [splitLines_cons_eq h]; split <;> simp

theorem not_nl_of_mem_splitLines {l r : List Char} (hr : r ∈ splitLines l) : '\n' ∉ r := by
  induction l generalizing r with
  | nil =>
    simp only [splitLines, List.mem_singleton] at hr
    subst hr; simp
  | cons c cs ih =>
    cases h : splitLines cs with
    | nil => exact absurd h (splitLines_ne_nil cs)
    | cons line rest =>
      rw [splitLines_cons_eq h] at hr
      have hline : line ∈ splitLines cs := by rw [h]; exact List.mem_cons_self _ _
      by_cases hc : c = '\n'
      · rw [if_pos hc] at hr
        rcases List.mem_cons.mp hr with h1 | h1
        · subst h1; simp
        · rcases List.mem_cons.mp h1 with h2 | h2
          · subst h2; exact ih hline
          · exact ih (by rw [h]; exact List.mem_cons_of_mem _ h2)
      · rw [if_neg hc] at hr
        rcases List.mem_cons.mp hr with h1 | h1
        · subst h1
          intro hm
          rcases List.mem_cons.mp hm with h2 | h2
          · exact hc h2.symm
          · exact ih hline h2
        · exact ih (by rw [h]; exact List.mem_cons_of_mem _ h1)

theorem splitLines_of_not_mem {l : List Char} (h : '\n' ∉ l) : splitLines l = [l] := by
  induction l with
  | nil => rfl
  | cons c cs ih =>
    have h1 : ('\n' : Char) ≠ c := fun he => h (he ▸ List.mem_cons_self _ _)
    have h2 : '\n' ∉ cs := fun hm => h (List.mem_cons_of_mem _ hm)
    rw [splitLines_cons_eq (ih h2), if_neg (fun hc => h1 hc.symm)]

theorem splitLines_append_nl {l1 l2 : List Char} (h : '\n' ∉ l1) :
    splitLines (l1 ++ '\n' :: l2) = l1 :: splitLines l2 := by
  induction l1 with
  | nil =>
    cases hs : splitLines l2 with
    | nil => exact absurd hs (splitLines_ne_nil l2)
    | cons line rest =>
      rw [List.nil_append, splitLines_cons_eq hs, if_pos rfl]
  | cons c cs ih =>
    have h1 : ('\n' : Char) ≠ c := fun he => h (he ▸ List.mem_cons_self _ _)
    have h2 : '\n' ∉ cs := fun hm => h (List.mem_cons_of_mem _ hm)
    rw [List.cons_append, splitLines_cons_eq (ih h2), if_neg (fun hc => h1 hc.symm)]

theorem splitLines_joinLines {rows : List (List Char)} (hne : rows ≠ [])
    (hnl : ∀ r ∈ rows, '\n' ∉ r) : splitLines (joinLines rows) = rows := by
  induction rows with
  | nil => exact absurd rfl hne
  | cons r rs ih =>
    cases rs with
    | nil => exact splitLines_of_not_mem (hnl r (List.mem_cons_self _ _))
    | cons r2 rs2 =>
      show splitLines (r ++ '\n' :: joinLines (r2 :: rs2)) = _
      rw [splitLines_append_nl (hnl r (List.mem_cons_self _ _)),
        ih (by simp) (fun x hx => hnl x (List.mem_cons_of_mem _ hx))]

theorem padLinesCenter_length {ls : List (List Char)} {h : Nat} (hl : ls.length ≤ h) :
    (padLinesCenter ls h).length = h := by
  simp only [padLinesCenter, List.length_append, List.length_replicate]
  omega

theorem mem_padLinesCenter {ls : List (List Char)} {h : Nat} {r : List Char}
    (hr : r ∈ padLinesCenter ls h) : r = [] ∨ r ∈ ls := by
  simp only [padLinesCenter, List.mem_append, List.mem_replicate] at hr
  tauto

theorem not_nl_padTo {l : List Char} {w : Nat} (h : '\n' ∉ l) : '\n' ∉ padTo l w := by
  intro hm
  rcases List.mem_append.mp hm with h1 | h1
  · exact h h1
  · exact absurd (List.eq_of_mem_replicate h1) (by decide)

theorem lipglossHeight_JoinHorizontalCenter (a b : String) :
    lipglossHeight (JoinHorizontalCenter a b) = max (lipglossHeight a) (lipglossHeight b) := by
  unfold lipglossHeight JoinHorizontalCenter
  have hla := splitLines_ne_nil a.data
  have hlb := splitLines_ne_nil b.data
  have hlena : 1 ≤ (splitLines a.data).length := List.length_pos.mpr hla
  have hlenb : 1 ≤ (splitLines b.data).length := List.length_pos.mpr hlb
  set la := splitLines a.data with hlaeq
  set lb := splitLines b.data with hlbeq
  set h := max la.length lb.length with hdef
  set rows := ((padLinesCenter la h).zip (padLinesCenter lb h)).map
    (fun p => padTo p.1 (maxWidthOf la) ++ padTo p.2 (maxWidthOf lb)) with hrows
  have hrowlen : rows.length = h := by
    rw [hrows, List.length_map, List.length_zip,
      padLinesCenter_length (le_max_left _ _), padLinesCenter_length (le_max_right _ _)]
    simp
  have hrne : rows ≠ [] := by
    apply List.ne_nil_of_length_pos
    rw [hrowlen]; omega
  have hrnl : ∀ r ∈ rows, '\n' ∉ r := by
    intro r hr
    rw [hrows] at hr
    obtain ⟨p, hp, hpr⟩ := List.mem_map.mp hr
    obtain ⟨hp1, hp2⟩ := List.of_mem_zip hp
    subst hpr
    intro hm
    rcases List.mem_append.mp hm with h1 | h1
    · rcases mem_padLinesCenter hp1 with he | he
      · rw [he] at h1; exact absurd h1 (not_nl_padTo (by simp) · )
      · exact not_nl_padTo (not_nl_of_mem_splitLines he) h1
    · rcases mem_padLinesCenter hp2 with he | he
      · rw [he] at h1; exact absurd h1 (not_nl_padTo (by simp) · )
      · exact not_nl_padTo (not_nl_of_mem_splitLines he) h1
  show (splitLines (String.mk (joinLines rows)).data).length = _
  rw [show (String.mk (joinLines rows)).data = joinLines rows from rfl,
    splitLines_joinLines hrne hrnl, hrowlen]

theorem JoinHorizontalCenter_single {a b : String} {x y : List Char}
    (ha : splitLines a.data = [x]) (hb : splitLines b.data = [y]) :
    JoinHorizontalCenter a b = String.mk (x ++ y) := by
  unfold JoinHorizontalCenter
  rw [ha, hb]
  simp [padLinesCenter, padTo, maxWidthOf, joinLines, lineWidth]

theorem lipglossWidth_single {s : String} (h : '\n' ∉ s.data) :
    lipglossWidth s = displayWidth s := by
  unfold lipglossWidth displayWidth maxWidthOf
  rw [splitLines_of_not_mem h]
  simp

theorem lineWidth_append (a b : List Char) :
    lineWidth (a ++ b) = lineWidth a + lineWidth b := by
  simp [lineWidth]

theorem lineWidth_replicate (n : Nat) (c : Char) :
    lineWidth (List.replicate n c) = n * charWidth c := by
  simp [lineWidth, List.map_replicate, List.sum_replicate, smul_eq_mul]

theorem lineWidth_of_all_one {l : List Char} (h : ∀ c ∈ l, charWidth c = 1) :
    lineWidth l = l.length := by
  induction l with
  | nil => rfl
  | cons c cs ih =>
    simp only [lineWidth, List.map_cons, List.sum_cons, h c (List.mem_cons_self _ _)]
    rw [show (cs.map charWidth).sum = lineWidth cs from rfl,
      ih (fun d hd => h d (List.mem_cons_of_mem _ hd)), List.length_cons]
    omega

theorem not_nl_replicate (n : Nat) {c : Char} (hc : c ≠ '\n') :
    '\n' ∉ List.replicate n c := by
  intro h
  exact hc (List.eq_of_mem_replicate h).symm

/-! ## Lemmas about the decimal formatting -/

theorem natDigitChar_facts (d : Nat) :
    natDigitChar d ≠ '\n' ∧ charWidth (natDigitChar d) = 1 := by
  unfold natDigitChar
  split <;> exact (by decide)

theorem mem_natDigitsRevAux {n : Nat} {c : Char} (hc : c ∈ natDigitsRevAux n) :
    c ≠ '\n' ∧ charWidth c = 1 := by
  induction n using Nat.strong_induction_on with
  | _ n ih =>
    rw [natDigitsRevAux] at hc
    split at hc
    · simp at hc
    · rcases List.mem_cons.mp hc with h | h
      · subst h; exact natDigitChar_facts _
      · exact ih (n / 10)
          (Nat.div_lt_self (Nat.pos_of_ne_zero (by assumption)) (by norm_num)) h

theorem natDigitsRevAux_length_le {k n : Nat} (h : n < 10 ^ k) :
    (natDigitsRevAux n).length ≤ k := by
  induction k generalizing n with
  | zero =>
    have : n = 0 := by simpa using h
    subst this
    rw [natDigitsRevAux]; simp
  | succ k ih =>
    rw [natDigitsRevAux]
    split
    · simp
    · simp only [List.length_cons]
      have hdiv : n / 10 < 10 ^ k := by
        rw [Nat.div_lt_iff_lt_mul (by norm_num : 0 < 10)]
        calc n < 10 ^ (k + 1) := h
        _ = 10 ^ k * 10 := by ring
      exact Nat.succ_le_succ (ih hdiv)

theorem natToString_chars {n : Nat} {c : Char} (hc : c ∈ (natToString n).data) :
    c ≠ '\n' ∧ charWidth c = 1 := by
  unfold natToString at hc
  split at hc
  · simp only [show ("0" : String).data = ['0'] from rfl, List.mem_singleton] at hc
    subst hc; exact (by decide)
  · rw [show (String.mk (natDigitsRevAux n).reverse).data = (natDigitsRevAux n).reverse
      from rfl, List.mem_reverse] at hc
    exact mem_natDigitsRevAux hc

theorem natToString_length_le {n : Nat} (h : n < 1000) : (natToString n).data.length ≤ 3 := by
  unfold natToString
  split
  · simp
  · rw [show (String.mk (natDigitsRevAux n).reverse).data = (natDigitsRevAux n).reverse
      from rfl, List.length_reverse]
    exact natDigitsRevAux_length_le (show n < 10 ^ 3 by norm_num; omega)

theorem round_bounds {x : ℚ} (h0 : 0 ≤ x) (h1 : x ≤ 100) :
    0 ≤ round x ∧ round x ≤ 100 := by
  rw [round_eq]
  constructor
  · exact Int.le_floor.mpr (by push_cast; linarith)
  · have h2 : (x + 1 / 2 : ℚ) < ((101 : ℤ) : ℚ) := by push_cast; linarith
    have := Int.floor_lt.mpr h2
    omega

theorem sprintfPercent3_facts {x : ℚ} (h0 : 0 ≤ x) (h1 : x ≤ 100) :
    lineWidth (sprintfPercent3 x).data = 4 ∧ '\n' ∉ (sprintfPercent3 x).data := by
  obtain ⟨hr0, hr1⟩ := round_bounds h0 h1
  unfold sprintfPercent3
  rw [intToString, if_neg (by omega)]
  set k := (round x).toNat with hk
  have hklt : k < 1000 := by omega
  have hdata : (String.mk (List.replicate (3 - (natToString k).length) ' ') ++
      natToString k ++ "%").data =
      List.replicate (3 - (natToString k).length) ' ' ++ (natToString k).data ++ ['%'] := by
    rw [String.data_append, String.data_append]
  have hlen : (natToString k).length = (natToString k).data.length := rfl
  constructor
  · rw [hdata, lineWidth_append, lineWidth_append, lineWidth_replicate,
      lineWidth_of_all_one (fun c hc => (natToString_chars hc).2)]
    have h3 : (natToString k).data.length ≤ 3 := natToString_length_le hklt
    have h4 : 1 ≤ (natToString k).data.length := by
      unfold natToString
      split
      · simp
      · rw [show (String.mk (natDigitsRevAux k).reverse).data = (natDigitsRevAux k).reverse
          from rfl, List.length_reverse]
        rw [natDigitsRevAux]
        split
        · omega
        · simp
    rw [hlen]
    have : charWidth ' ' = 1 := by decide
    rw [this, show lineWidth ['%'] = 1 from by decide]
    omega
  · rw [hdata]
    intro hm
    rcases List.mem_append.mp hm with hm1 | hm1
    · rcases List.mem_append.mp hm1 with hm2 | hm2
      · exact absurd (List.eq_of_mem_replicate hm2) (by decide)
      · exact (natToString_chars hm2).1 rfl
    · simp at hm1

theorem ScrollPercent_bounds (v : Viewport) :
    0 ≤ v.ScrollPercent ∧ v.ScrollPercent ≤ 1 := by
  unfold Viewport.ScrollPercent
  split
  · norm_num
  · constructor
    · exact le_max_left 0 _
    · exact max_le (by norm_num) (min_le_left _ _)

/-! ## Height and width of the header and footer -/

theorem GotoTop_yOffset (v : Viewport) : v.GotoTop.yOffset = 0 := by
  show min v.maxYOffset (max 0 0) = 0
  rw [max_self]
  exact min_eq_right (le_max_left 0 _)

theorem HeaderView_height (m : Model) :
    lipglossHeight m.HeaderView = max (splitLines m.selectedFileName.data).length 1 := by
  unfold Model.HeaderView headerStyleRender
  rw [lipglossHeight_JoinHorizontalCenter]
  congr 1
  unfold lipglossHeight
  rw [show (String.mk (List.replicate
      (goMax 0 (m.viewport.width - (lipglossWidth m.selectedFileName : Int))).toNat
      ruleChar)).data = List.replicate
      (goMax 0 (m.viewport.width - (lipglossWidth m.selectedFileName : Int))).toNat
      ruleChar from rfl,
    splitLines_of_not_mem (not_nl_replicate _ (by decide))]
  rfl

theorem PlaceHorizontalRight_not_nl {w : Int} {s : String} (h : '\n' ∉ s.data) :
    '\n' ∉ (PlaceHorizontalRight w s).data := by
  unfold PlaceHorizontalRight
  rw [splitLines_of_not_mem h]
  dsimp only
  split
  · exact h
  · simp only [List.map_cons, List.map_nil, joinLines]
    intro hm
    rcases List.mem_append.mp hm with h1 | h1
    · exact absurd (List.eq_of_mem_replicate h1) (by decide)
    · exact h h1

theorem footerInfo_eq (m : Model) :
    m.footerInfo = String.mk (List.replicate
      (goMax 0 (m.viewport.width -
        (lipglossWidth (sprintfPercent3 (m.viewport.ScrollPercent * 100)) : Int))).toNat
      ruleChar ++ (sprintfPercent3 (m.viewport.ScrollPercent * 100)).data) := by
  obtain ⟨hsp, hsv⟩ := ScrollPercent_bounds m.viewport
  have hx0 : (0 : ℚ) ≤ m.viewport.ScrollPercent * 100 := by linarith
  have hx1 : m.viewport.ScrollPercent * 100 ≤ 100 := by linarith
  obtain ⟨-, hnl⟩ := sprintfPercent3_facts hx0 hx1
  unfold Model.footerInfo footerStyleRender
  exact JoinHorizontalCenter_single
    (splitLines_of_not_mem (not_nl_replicate _ (by decide)))
    (splitLines_of_not_mem hnl)

theorem footerInfo_not_nl (m : Model) : '\n' ∉ m.footerInfo.data := by
  obtain ⟨hsp, hsv⟩ := ScrollPercent_bounds m.viewport
  have hx0 : (0 : ℚ) ≤ m.viewport.ScrollPercent * 100 := by linarith
  have hx1 : m.viewport.ScrollPercent * 100 ≤ 100 := by linarith
  obtain ⟨-, hnl⟩ := sprintfPercent3_facts hx0 hx1
  rw [footerInfo_eq]
  intro hm
  rcases List.mem_append.mp hm with h1 | h1
  · exact absurd (List.eq_of_mem_replicate h1) (by decide)
  · exact hnl h1

theorem FooterView_height (m : Model) : lipglossHeight m.FooterView = 2 := by
  unfold Model.FooterView
  have hhelp : '\n' ∉ (PlaceHorizontalRight m.viewport.width helpShortView).data :=
    PlaceHorizontalRight_not_nl (by decide)
  unfold lipglossHeight
  rw [show (PlaceHorizontalRight m.viewport.width helpShortView ++ "\n" ++
      m.footerInfo).data = (PlaceHorizontalRight m.viewport.width helpShortView).data ++
      '\n' :: m.footerInfo.data from by
    rw [String.data_append, String.data_append]; simp]
  rw [splitLines_append_nl hhelp, List.length_cons,
    splitLines_of_not_mem (footerInfo_not_nl m)]
  rfl

/-! ## Lemmas about `Model.Update` -/

theorem Update_key_enter (rf : String → Option String) (rr : String → String × Bool)
    (m : Model) : Model.Update rf rr m (.key "enter") =
      (enterAction rf rr m).map (fun m1 => (m1, false)) := rfl

theorem Update_key_esc (rf : String → Option String) (rr : String → String × Bool)
    (m : Model) : Model.Update rf rr m (.key "esc") = some (backAction m, false) := rfl

theorem Update_key_up (rf : String → Option String) (rr : String → String × Bool)
    (m : Model) : Model.Update rf rr m (.key "up") =
      some ({ upAction m with viewport := (upAction m).viewport.LineUp 1 }, false) := rfl

theorem Update_key_down (rf : String → Option String) (rr : String → String × Bool)
    (m : Model) : Model.Update rf rr m (.key "down") =
      some ({ downAction m with viewport := (downAction m).viewport.LineDown 1 }, false) := rfl

theorem Update_windowSize (rf : String → Option String) (rr : String → String × Bool)
    (m : Model) (w h : Int) :
    Model.Update rf rr m (.windowSize w h) = some (resizeAction m w h, false) := rfl

theorem loadFile_fields {rf : String → Option String} {m m1 : Model} {sel : String}
    (h : loadFile rf m sel = some m1) :
    m1.cursor = m.cursor ∧ m1.currentView = m.currentView ∧
    m1.fileNames = m.fileNames ∧ m1.viewport = m.viewport := by
  unfold loadFile at h
  split at h
  · rw [Option.some.injEq] at h
    subst h
    exact ⟨rfl, rfl, rfl, rfl⟩
  · split at h
    · exact absurd h (by simp)
    · rw [Option.some.injEq] at h
      subst h
      exact ⟨rfl, rfl, rfl, rfl⟩

theorem enterLoad_fields {rf : String → Option String} {rr : String → String × Bool}
    {m m' : Model} (h : enterLoad rf rr m = some m') :
    m'.currentView = .fileContentView ∧ m'.cursor = m.cursor ∧
    m'.fileNames = m.fileNames ∧ m'.viewport.yOffset = 0 := by
  unfold enterLoad at h
  cases hg : goIndex m.fileNames m.cursor with
  | none => rw [hg] at h; exact absurd h (by simp)
  | some sel =>
    rw [hg] at h
    dsimp only at h
    cases hl : loadFile rf m sel with
    | none => rw [hl] at h; exact absurd h (by simp)
    | some m1 =>
      rw [hl] at h
      dsimp only at h
      obtain ⟨h1, h2, h3, h4⟩ := loadFile_fields hl
      simp only [Option.some.injEq] at h
      subst h
      refine ⟨rfl, ?_, ?_, GotoTop_yOffset _⟩
      · show (if (rr m1.fileContent).2 then _ else m1).cursor = m.cursor
        split
        · exact h1
        · exact h1
      · show (if (rr m1.fileContent).2 then _ else m1).fileNames = m.fileNames
        split
        · exact h3
        · exact h3

theorem enterLoad_read_error {rf : String → Option String} (rr : String → String × Bool)
    {m : Model} {sel : String} (hg : goIndex m.fileNames m.cursor = some sel)
    (hr : rf ("directory/" ++ sel) = none) :
    ∃ m', enterLoad rf rr m = some m' ∧ m'.fileContent = "Error reading file" ∧
      m'.selectedFileName = m.selectedFileName ∧ m'.currentView = .fileContentView ∧
      m'.cursor = m.cursor ∧ m'.fileNames = m.fileNames := by
  have hl : loadFile rf m sel = some { m with fileContent := "Error reading file" } := by
    unfold loadFile
    rw [hr]
  unfold enterLoad
  rw [hg]
  dsimp only
  rw [hl]
  dsimp only
  refine ⟨_, rfl, ?_, ?_, rfl, ?_, ?_⟩ <;> (split <;> rfl)

theorem resizeAction_cursor (m : Model) (w h : Int) :
    (resizeAction m w h).cursor = m.cursor := by
  unfold resizeAction
  dsimp only
  split <;> rfl

theorem resizeAction_fileNames (m : Model) (w h : Int) :
    (resizeAction m w h).fileNames = m.fileNames := by
  unfold resizeAction
  dsimp only
  split <;> rfl

theorem resizeAction_selectedFileName (m : Model) (w h : Int) :
    (resizeAction m w h).selectedFileName = m.selectedFileName := by
  unfold resizeAction
  dsimp only
  split <;> rfl

theorem upAction_inv {m : Model} (h : cursorInv m) : cursorInv (upAction m) := by
  obtain ⟨h0, h1⟩ := h
  unfold upAction
  by_cases hc : m.cursor > 0 ∧ m.currentView = .fileListView
  · rw [if_pos hc]
    obtain ⟨hgt, -⟩ := hc
    refine ⟨show (0 : Int) ≤ m.cursor - 1 by omega,
      show m.cursor - 1 < max 1 ((m.fileNames.length : Int)) from ?_⟩
    rcases max_choice 1 ((m.fileNames.length : Int)) with hM | hM <;>
      rw [hM] at h1 ⊢ <;> omega
  · rw [if_neg hc]
    exact ⟨h0, h1⟩

theorem downAction_inv {m : Model} (h : cursorInv m) : cursorInv (downAction m) := by
  obtain ⟨h0, h1⟩ := h
  unfold downAction
  by_cases hc : m.cursor < (m.fileNames.length : Int) - 1 ∧ m.currentView = .fileListView
  · rw [if_pos hc]
    obtain ⟨hlt, -⟩ := hc
    refine ⟨show (0 : Int) ≤ m.cursor + 1 by omega,
      show m.cursor + 1 < max 1 ((m.fileNames.length : Int)) from ?_⟩
    rcases max_choice 1 ((m.fileNames.length : Int)) with hM | hM <;>
      rw [hM] at h1 ⊢ <;> omega
  · rw [if_neg hc]
    exact ⟨h0, h1⟩

theorem Update_cursorInv {rf : String → Option String} {rr : String → String × Bool}
    {m m' : Model} {msg : Msg} {q : Bool} (hinv : cursorInv m)
    (h : Model.Update rf rr m msg = some (m', q)) : cursorInv m' := by
  cases msg with
  | windowSize w hh =>
    rw [Update_windowSize, Option.some.injEq, Prod.mk.injEq] at h
    obtain ⟨h1, -⟩ := h
    subst h1
    unfold cursorInv
    rw [resizeAction_cursor, resizeAction_fileNames]
    exact hinv
  | key s =>
    unfold Model.Update at h
    dsimp only at h
    split at h
    · rw [Option.some.injEq, Prod.mk.injEq] at h
      obtain ⟨h1, -⟩ := h
      subst h1
      exact hinv
    · rcases Option.map_eq_some'.mp h with ⟨m1, hm1, heq⟩
      rw [Prod.mk.injEq] at heq
      obtain ⟨h1, -⟩ := heq
      subst h1
      have hm1inv : cursorInv m1 := by
        split at hm1
        · rw [Option.some.injEq] at hm1; subst hm1; exact upAction_inv hinv
        · split at hm1
          · rw [Option.some.injEq] at hm1; subst hm1; exact downAction_inv hinv
          · split at hm1
            · rw [Option.some.injEq] at hm1; subst hm1; exact hinv
            · split at hm1
              · unfold enterAction at hm1
                split at hm1
                · obtain ⟨-, hc, hf, -⟩ := enterLoad_fields hm1
                  unfold cursorInv
                  rw [hc, hf]
                  exact hinv
                · rw [Option.some.injEq] at hm1; subst hm1; exact hinv
              · split at hm1
                · rw [Option.some.injEq] at hm1
                  subst hm1
                  unfold backAction
                  split
                  · exact hinv
                  · exact hinv
                · rw [Option.some.injEq] at hm1; subst hm1; exact hinv
      exact hm1inv

theorem resizeAction_height (m : Model) (w h : Int) :
    (resizeAction m w h).viewport.height =
      h - (lipglossHeight (Model.HeaderView { m with helpWidth := w }) : Int)
        - (lipglossHeight (Model.FooterView { m with helpWidth := w }) : Int) := by
  unfold resizeAction
  dsimp only
  split <;> (dsimp only; omega)

/-! ## Concrete fixtures for witnesses and counterexamples -/

/-- A file system on which every read fails. -/
def readNone : String → Option String := fun _ => none

/-- A markdown renderer that succeeds and returns its input unchanged. -/
def renderId : String → String × Bool := fun s => (s, false)

/-- A markdown renderer that fails, returning the empty string with an error
(as `glamour.Render` does on a renderer failure). -/
def renderFail : String → String × Bool := fun _ => ("", true)

/-- A fresh session over an empty document list. -/
def emptyListModel : Model := teaHandlerModel [] [] 24 "" ""

/-- A fresh session over one document. -/
def oneDocModel : Model := teaHandlerModel ["a.md"] ["desc"] 24 "" ""

/-- A file system holding `directory/a.md` with a two-line metadata block. -/
def readOneDoc : String → Option String :=
  fun p => if p = "directory/a.md" then some "meta1\nmeta2\nbody" else none

/-- A fresh session over the two documents of the spec's scenario. -/
def twoDocModel : Model := teaHandlerModel ["a.md", "b.md"] ["da", "db"] 24 "" ""

/-- A file system holding `directory/b.md`. -/
def readTwoDocs : String → Option String :=
  fun p => if p = "directory/b.md" then some "Position: B\ndesc\n# Body\ntext" else none

/-- The state of `oneDocModel` right after an Enter whose read failed. -/
def c5PostEnter : Model :=
  { cursor := 0
    ready := false
    viewport := { width := 0, height := 0, yOffset := 0, lines := ["Error reading file"] }
    fileNames := ["a.md"]
    fileDescriptions := ["desc"]
    currentView := .fileContentView
    selectedFileName := ""
    fileContent := "Error reading file"
    terminalHeight := 24
    helpWidth := 0
    catimgOutput := ""
    qrOutput := "" }

/-- `twoDocModel` after one Down. -/
def c4DownModel : Model := { twoDocModel with cursor := 1 }

/-- Two freshly connected sessions. -/
def c9Start : TwoSessions := { s1 := twoDocModel, s2 := oneDocModel }

/-- The same world after session 1 pressed Down. -/
def c9AfterDown1 : TwoSessions := { s1 := { twoDocModel with cursor := 1 }, s2 := oneDocModel }

/-- A session that has previously opened a document successfully. -/
def prevSelModel : Model := { oneDocModel with selectedFileName := "prev.md" }

/-- A document name of display width 81. -/
def longName : String := String.mk (List.replicate 81 'a')

/-- A ContentView state with an 80-column viewport and an 81-column name. -/
def narrowTermModel : Model :=
  { oneDocModel with
    currentView := .fileContentView
    selectedFileName := longName
    viewport := { width := 80, height := 24, yOffset := 0, lines := [] } }

/-- A ContentView state whose name fits its 20-column viewport. -/
def c7FitModel : Model :=
  { oneDocModel with
    currentView := .fileContentView
    selectedFileName := "notes.md"
    viewport := { width := 20, height := 5, yOffset := 0, lines := ["a", "b"] } }

/-! ## The claims -/

/-- C1: with an empty document list, the Up and Down keys are safe no-ops
(the whole state is unchanged), but pressing Enter in ListView evaluates
`m.fileNames[m.cursor]` with no emptiness check and panics with an
index-out-of-range runtime error (modelled by `none`): the claim's
"no crash" part fails on the code. -/
theorem C1_empty_list_enter_panics :
    Model.Update readNone renderId emptyListModel (.key "enter") = none ∧
    Model.Update readNone renderId emptyListModel (.key "up") = some (emptyListModel, false) ∧
    Model.Update readNone renderId emptyListModel (.key "down") = some (emptyListModel, false) := by
  decide

/-- C2: when the markdown render fails, the code's
`SetContent("Error parsing markdown")` is immediately overwritten by the
unconditional `SetContent(parsedFileContent)`, so the viewport afterwards
holds the render call's returned text (the empty string), not the fixed
placeholder: the claim fails on the code. -/
theorem C2_render_error_placeholder_overwritten :
    (Model.Update readOneDoc renderFail oneDocModel (.key "enter")).map
      (fun p => p.1.viewport.lines) = some [""] ∧
    (Model.Update readOneDoc renderFail oneDocModel (.key "enter")).map
      (fun p => p.1.viewport.lines) ≠ some ["Error parsing markdown"] := by
  decide

/-- C3: an Enter in ListView whose document read fails (with the cursor in
range, as the invariant guarantees for a non-empty list) sets the stored
content to the placeholder text, still transitions to ContentView, and
neither panics nor quits the session. -/
theorem C3_read_failure_recoverable (rf : String → Option String)
    (rr : String → String × Bool) (m : Model) (sel : String)
    (hv : m.currentView = .fileListView)
    (hg : goIndex m.fileNames m.cursor = some sel)
    (hr : rf ("directory/" ++ sel) = none) :
    ∃ m', Model.Update rf rr m (.key "enter") = some (m', false) ∧
      m'.fileContent = "Error reading file" ∧ m'.currentView = .fileContentView := by
  obtain ⟨e, he, hfc, -, hcv, -, -⟩ := enterLoad_read_error rr hg hr
  refine ⟨e, ?_, hfc, hcv⟩
  rw [Update_key_enter]
  unfold enterAction
  rw [if_pos hv, he]
  rfl

/-- C3 witness: a concrete one-document session whose read fails. -/
theorem C3_witness :
    ∃ m', Model.Update readNone renderId oneDocModel (.key "enter") = some (m', false) ∧
      m'.fileContent = "Error reading file" ∧ m'.currentView = .fileContentView :=
  C3_read_failure_recoverable readNone renderId oneDocModel "a.md" rfl (by decide) rfl

/-- C4: every session state reachable by any message sequence satisfies the
cursor invariant `0 ≤ cursor < max(1, len(documents))`; in particular it
holds again after every Up and every Down, also on an empty list. -/
theorem C4_cursor_invariant (rf : String → Option String) (rr : String → String × Bool)
    {m : Model} (h : Reachable rf rr m) : cursorInv m := by
  induction h with
  | init fn fd th c q =>
    exact ⟨le_refl 0, lt_of_lt_of_le one_pos (le_max_left _ _)⟩
  | step hr hstep ih => exact Update_cursorInv ih hstep

/-- C4 witness: the invariant holds for a fresh two-document session and
after one Down step. -/
theorem C4_witness : cursorInv twoDocModel ∧ cursorInv c4DownModel :=
  ⟨C4_cursor_invariant readNone renderId
    (Reachable.init ["a.md", "b.md"] ["da", "db"] 24 "" ""),
   C4_cursor_invariant readNone renderId
    (Reachable.step (Reachable.init ["a.md", "b.md"] ["da", "db"] 24 "" "")
      (show Model.Update readNone renderId twoDocModel (.key "down") =
        some (c4DownModel, false) by decide))⟩

/-- C5: from ListView with a non-empty document list, an Enter that completes
followed by Back returns to ListView with the cursor unchanged from before
the Enter and the viewport scrolled to the top. -/
theorem C5_enter_back_roundtrip (rf : String → Option String)
    (rr : String → String × Bool) (m m1 : Model) (q1 : Bool)
    (hv : m.currentView = .fileListView) (_hne : m.fileNames ≠ [])
    (h1 : Model.Update rf rr m (.key "enter") = some (m1, q1)) :
    ∃ m2, Model.Update rf rr m1 (.key "esc") = some (m2, false) ∧
      m2.currentView = .fileListView ∧ m2.cursor = m.cursor ∧
      m2.viewport.yOffset = 0 := by
  rw [Update_key_enter] at h1
  unfold enterAction at h1
  rw [if_pos hv] at h1
  rcases Option.map_eq_some'.mp h1 with ⟨e, he, heq⟩
  obtain ⟨hcv, hcur, -, -⟩ := enterLoad_fields he
  have hm1 : e = m1 := congrArg Prod.fst heq
  subst hm1
  rw [Update_key_esc]
  unfold backAction
  rw [if_pos hcv]
  exact ⟨_, rfl, rfl, hcur, GotoTop_yOffset _⟩

/-- C5 witness: a concrete roundtrip on a one-document session. -/
theorem C5_witness :
    ∃ m2, Model.Update readNone renderId c5PostEnter (.key "esc") = some (m2, false) ∧
      m2.currentView = .fileListView ∧ m2.cursor = oneDocModel.cursor ∧
      m2.viewport.yOffset = 0 :=
  C5_enter_back_roundtrip readNone renderId oneDocModel c5PostEnter false rfl
    (by decide) (by decide)

/-- C6: after every resize event, in whichever view, the viewport height
equals the resize height minus the measured header height and footer height
of the resulting state, and the resize neither panics nor quits. -/
theorem C6_resize_viewport_height (rf : String → Option String)
    (rr : String → String × Bool) (m : Model) (w h : Int) :
    ∃ m', Model.Update rf rr m (.windowSize w h) = some (m', false) ∧
      m'.viewport.height =
        h - (lipglossHeight m'.HeaderView : Int) - (lipglossHeight m'.FooterView : Int) := by
  refine ⟨resizeAction m w h, Update_windowSize rf rr m w h, ?_⟩
  rw [resizeAction_height]
  have hH : lipglossHeight (Model.HeaderView { m with helpWidth := w }) =
      lipglossHeight (resizeAction m w h).HeaderView := by
    rw [HeaderView_height, HeaderView_height, resizeAction_selectedFileName]
  have hF1 : lipglossHeight (Model.FooterView { m with helpWidth := w }) = 2 :=
    FooterView_height _
  have hF2 : lipglossHeight (resizeAction m w h).FooterView = 2 := FooterView_height _
  omega

/-- C7 counterexample: with an 80-column viewport (at or above any minimal
threshold) and a document name of display width 81, the rendered header line
has display width 81, not the terminal width: the claim's "for any document
name length" fails on the code. -/
theorem C7_counterexample :
    narrowTermModel.viewport.width = 80 ∧
    displayWidth narrowTermModel.selectedFileName = 81 ∧
    lipglossWidth narrowTermModel.HeaderView = 81 := by
  decide

/-- C7 (amended): for a single-line document name whose display width is at
most the viewport width — in particular the empty name — and a viewport at
least 4 columns wide, the rendered header line and the footer's
rule-plus-percentage line each have display width exactly the viewport
width (which tracks the terminal width after a resize). -/
theorem C7_chrome_width (m : Model) (hnl : '\n' ∉ m.selectedFileName.data)
    (hw : (4 : Int) ≤ m.viewport.width)
    (hname : (displayWidth m.selectedFileName : Int) ≤ m.viewport.width) :
    (lipglossWidth m.HeaderView : Int) = m.viewport.width ∧
    (lipglossWidth m.footerInfo : Int) = m.viewport.width := by
  constructor
  · unfold Model.HeaderView headerStyleRender
    rw [JoinHorizontalCenter_single (splitLines_of_not_mem hnl)
      (splitLines_of_not_mem (not_nl_replicate _ (by decide)))]
    rw [show lipglossWidth m.selectedFileName = displayWidth m.selectedFileName from
      lipglossWidth_single hnl]
    rw [lipglossWidth_single (by
      intro hm
      rcases List.mem_append.mp hm with h1 | h1
      · exact hnl h1
      · exact absurd (List.eq_of_mem_replicate h1) (by decide))]
    unfold displayWidth at hname ⊢
    rw [lineWidth_append, lineWidth_replicate,
      show charWidth ruleChar = 1 from by decide]
    unfold goMax
    omega
  · obtain ⟨hsp0, hsp1⟩ := ScrollPercent_bounds m.viewport
    have hx0 : (0 : ℚ) ≤ m.viewport.ScrollPercent * 100 :=
      mul_nonneg hsp0 (by norm_num)
    have hx1 : m.viewport.ScrollPercent * 100 ≤ 100 := by
      calc m.viewport.ScrollPercent * 100 ≤ 1 * 100 :=
        mul_le_mul_of_nonneg_right hsp1 (by norm_num)
      _ = 100 := by norm_num
    obtain ⟨hw4, hnl4⟩ := sprintfPercent3_facts hx0 hx1
    rw [footerInfo_eq]
    rw [show lipglossWidth (sprintfPercent3 (m.viewport.ScrollPercent * 100)) =
        displayWidth (sprintfPercent3 (m.viewport.ScrollPercent * 100)) from
      lipglossWidth_single hnl4]
    rw [lipglossWidth_single (by
      intro hm
      rcases List.mem_append.mp hm with h1 | h1
      · exact absurd (List.eq_of_mem_replicate h1) (by decide)
      · exact hnl4 h1)]
    unfold displayWidth
    rw [lineWidth_append, lineWidth_replicate,
      show charWidth ruleChar = 1 from by decide]
    unfold displayWidth at *
    rw [hw4]
    unfold goMax
    omega

/-- C7 witness: a 20-column ContentView whose name fits. -/
theorem C7_witness :
    (lipglossWidth c7FitModel.HeaderView : Int) = c7FitModel.viewport.width ∧
    (lipglossWidth c7FitModel.footerInfo : Int) = c7FitModel.viewport.width :=
  C7_chrome_width c7FitModel (by decide) (by decide) (by decide)

/-- C8: on the document list `["a.md", "b.md"]` with initial cursor 0, Down
moves the cursor to 1, a second Down leaves it clamped at 1, Enter opens the
document at the cursor (`"b.md"`) in ContentView, and Back returns to
ListView with the cursor still 1. -/
theorem C8_scenario :
    (runKeys readTwoDocs renderId twoDocModel ["down"]).map Model.cursor = some 1 ∧
    (runKeys readTwoDocs renderId twoDocModel ["down", "down"]).map Model.cursor = some 1 ∧
    (runKeys readTwoDocs renderId twoDocModel ["down", "down", "enter"]).map
      (fun m => (m.currentView, m.selectedFileName)) = some (.fileContentView, "b.md") ∧
    (runKeys readTwoDocs renderId twoDocModel ["down", "down", "enter", "esc"]).map
      (fun m => (m.currentView, m.cursor)) = some (.fileListView, 1) := by
  decide

/-- C9: sessions are isolated: delivering a message to one session never
changes any state of the other session, and a Down in each of two sessions
reaches the same world in either order. -/
theorem C9_session_isolation (rf : String → Option String) (rr : String → String × Bool)
    (w : TwoSessions) :
    (∀ msg w', stepSession1 rf rr w msg = some w' → w'.s2 = w.s2) ∧
    (∀ msg w', stepSession2 rf rr w msg = some w' → w'.s1 = w.s1) ∧
    (stepSession1 rf rr w (.key "down")).bind
        (fun w1 => stepSession2 rf rr w1 (.key "down")) =
      (stepSession2 rf rr w (.key "down")).bind
        (fun w2 => stepSession1 rf rr w2 (.key "down")) := by
  refine ⟨?_, ?_, ?_⟩
  · intro msg w' h
    rcases Option.map_eq_some'.mp h with ⟨p, -, heq⟩
    rw [← heq]
  · intro msg w' h
    rcases Option.map_eq_some'.mp h with ⟨p, -, heq⟩
    rw [← heq]
  · rfl

/-- C9 witness: two concrete sessions; session 1 presses Down. -/
theorem C9_witness :
    c9AfterDown1.s2 = c9Start.s2 ∧
    (stepSession1 readNone renderId c9Start (.key "down")).bind
        (fun w1 => stepSession2 readNone renderId w1 (.key "down")) =
      (stepSession2 readNone renderId c9Start (.key "down")).bind
        (fun w2 => stepSession1 readNone renderId w2 (.key "down")) :=
  ⟨(C9_session_isolation readNone renderId c9Start).1 (.key "down") c9AfterDown1
    (by decide),
   (C9_session_isolation readNone renderId c9Start).2.2⟩

/-- C10: when the Enter-time read fails, the stored selected file name is
left unchanged (it is set only on a successful read), so the ContentView
header afterwards shows the previously selected document's name; a fresh
session starts with the empty name. -/
theorem C10_selected_name_kept_on_read_failure (rf : String → Option String)
    (rr : String → String × Bool) (m : Model) (sel : String)
    (hv : m.currentView = .fileListView)
    (hg : goIndex m.fileNames m.cursor = some sel)
    (hr : rf ("directory/" ++ sel) = none) :
    (∃ m', Model.Update rf rr m (.key "enter") = some (m', false) ∧
      m'.selectedFileName = m.selectedFileName ∧ m'.currentView = .fileContentView) ∧
    (∀ fn fd th c q, (teaHandlerModel fn fd th c q).selectedFileName = "") := by
  refine ⟨?_, fun fn fd th c q => rfl⟩
  obtain ⟨e, he, -, hsn, hcv, -, -⟩ := enterLoad_read_error rr hg hr
  refine ⟨e, ?_, hsn, hcv⟩
  rw [Update_key_enter]
  unfold enterAction
  rw [if_pos hv, he]
  rfl

/-- C10 witness: a session that had opened `prev.md` keeps that name when the
next read fails. -/
theorem C10_witness :
    (∃ m', Model.Update readNone renderId prevSelModel (.key "enter") = some (m', false) ∧
      m'.selectedFileName = prevSelModel.selectedFileName ∧
      m'.currentView = .fileContentView) ∧
    (∀ fn fd th c q, (teaHandlerModel fn fd th c q).selectedFileName = "") :=
  C10_selected_name_kept_on_read_failure readNone renderId prevSelModel "a.md" rfl
    (by decide) rfl

end JODC
